import Mathlib

/-!
# Kerrokantasi admin scripts

A shallow embedding of the browser-side admin scripts and of the stylesheet
build script of the kerrokantasi repository:

* `democracy/static/admin/hide-plugin-fields.js` (`setPluginFieldsVisibility`),
* `democracy/static/admin/ckeditor-nested-inline-fix.js` (the `djnesting:added` handler),
* `kk/static/admin/wymeditor/skins/djangoadmin/build.js` (`build` and the watch loop).

The DOM is an arena of nodes with parent pointers, jQuery sets are lists of node
indices, and calls into the external libraries (CKEDITOR, stylus, fs) are recorded
or taken as parameters. The build script runs in a process that exits at the first
uncaught exception.
-/

namespace Kerrokantasi

/-! ## JavaScript values and strings -/

/-- The JavaScript values that the jQuery getters `.val()` and `.data(key)` return.
Numbers are restricted to integers; `obj prim` is an array or object, represented by
the string `prim` that it converts to under `ToPrimitive` (`[0]` is `obj "0"`). -/
inductive JSVal where
  | undefined
  | null
  | bool (b : Bool)
  | num (n : Int)
  | str (s : String)
  | obj (prim : String)
  deriving DecidableEq, Repr

/-- Strict equality `v === s` of a value with a string literal `s`. -/
def JSVal.strictEqStr (v : JSVal) (s : String) : Bool :=
  match v with
  | .str t => decide (t = s)
  | _ => false

/-- Loose equality `v == "0"`: a string is compared as a string, a number or boolean
with `ToNumber("0") = 0`, an object through its primitive string; `undefined` and
`null` equal no string. -/
def JSVal.looseEqZeroStr : JSVal → Bool
  | .str t => decide (t = "0")
  | .num n => decide (n = 0)
  | .bool b => !b
  | .obj prim => decide (prim = "0")
  | .undefined => false
  | .null => false

/-- The scan of `String.prototype.indexOf`: the first position at or after `k` where
`pat` starts, or `-1`. -/
def indexOfFrom (pat : List Char) : List Char → Nat → Int
  | [], k => if pat = [] then (k : Int) else -1
  | c :: cs, k => if pat.isPrefixOf (c :: cs) then (k : Int) else indexOfFrom pat cs (k + 1)

/-- The call `s.indexOf(pat)`. Positions count characters; the scripts compare the
result with `-1` only. -/
def indexOf (s pat : String) : Int := indexOfFrom pat.data s.data 0

/-! ## The DOM of the admin form (hide-plugin-fields.js) -/

/-- An element of the page: its tag name, its `id` attribute if it has one, the index
of its parent element, what `.val()` returns for it, and its own display state
(`false` after `.hide()`, `true` after `.show()`). -/
structure Node where
  tag : String
  id : Option String
  parent : Option Nat
  value : JSVal
  visible : Bool
  deriving DecidableEq, Repr

/-- The document: its elements, addressed by their index. -/
abbrev Dom := List Node

/-- The walk of `.closest(tag)`: the element itself if it has the tag, else its
parent, and so on; `fuel` bounds the number of elements visited. -/
def closestFrom (dom : Dom) (tag : String) : Nat → Nat → Option Nat
  | 0, _ => none
  | fuel + 1, i =>
    match dom[i]? with
    | none => none
    | some n =>
      if n.tag = tag then some i
      else
        match n.parent with
        | none => none
        | some p => closestFrom dom tag fuel p

/-- The call `$(i).closest(tag)`: the nearest element with the tag among `i` and its
ancestors. -/
def closest (dom : Dom) (tag : String) (i : Nat) : Option Nat :=
  closestFrom dom tag dom.length i

/-- The walk of `jQuery.contains(a, d)` from `d` upwards: some proper ancestor of `d`
is `a`. -/
def containsFrom (dom : Dom) (a : Nat) : Nat → Nat → Bool
  | 0, _ => false
  | fuel + 1, d =>
    match dom[d]? with
    | none => false
    | some n =>
      match n.parent with
      | none => false
      | some p => if p = a then true else containsFrom dom a fuel p

/-- The call `jQuery.contains(a, d)`: `d` is a descendant of `a`, and not `a` itself. -/
def contains (dom : Dom) (a d : Nat) : Bool :=
  containsFrom dom a dom.length d

/-- The call `$(f).children()`: the elements whose parent is `f`, in document order. -/
def children (dom : Dom) (f : Nat) : List Nat :=
  (List.range dom.length).filter fun i =>
    match dom[i]? with
    | none => false
    | some n => decide (n.parent = some f)

/-- The selector `*[id *=pat]`: the element has an `id` attribute whose value contains
`pat`. -/
def idContains (pat : String) (n : Node) : Bool :=
  match n.id with
  | none => false
  | some s => decide (indexOf s pat ≠ -1)

/-- The filter `.has(selector)` on one element `c`: some descendant of `c` matches. -/
def has (dom : Dom) (sel : Node → Bool) (c : Nat) : Bool :=
  (List.range dom.length).any fun d =>
    match dom[d]? with
    | none => false
    | some n => sel n && contains dom c d

/-- The jQuery set `$pluginFields` of `setPluginFieldsVisibility`:
`$typeSelect.closest("fieldset").children().has("*[id *=plugin]")`. -/
def pluginFields (dom : Dom) (typeSelect : Nat) : List Nat :=
  match closest dom "fieldset" typeSelect with
  | none => []
  | some f => (children dom f).filter (has dom (idContains "plugin"))

/-- The effect of `.hide()` (`b = false`) and `.show()` (`b = true`) on the jQuery set
`sel`: the display state of each of its elements is set to `b`. -/
def setDisplay (dom : Dom) (sel : List Nat) (b : Bool) : Dom :=
  dom.mapIdx fun i n => if i ∈ sel then { n with visible := b } else n

/-- The call `$(sel).hide()`. -/
def hide (dom : Dom) (sel : List Nat) : Dom := setDisplay dom sel false

/-- The call `$(sel).show()`. -/
def jqShow (dom : Dom) (sel : List Nat) : Dom := setDisplay dom sel true

/-- The call `$(i).val()`; `undefined` on an empty set. -/
def val (dom : Dom) (i : Nat) : JSVal :=
  match dom[i]? with
  | none => .undefined
  | some n => n.value

/-- The function `setPluginFieldsVisibility($typeSelect)`: hide the plugin fields if
the type select's value is `"1"` (introduction), show them otherwise. -/
def setPluginFieldsVisibility (dom : Dom) (typeSelect : Nat) : Dom :=
  let pluginFields := pluginFields dom typeSelect
  if (val dom typeSelect).strictEqStr "1" then hide dom pluginFields
  else jqShow dom pluginFields

/-- A small section form: a fieldset (0) with a row (1) holding the type select (2),
a row (3) holding the plugin identifier input (4), a row (5) whose own id contains
"plugin" but which holds no such element, and a row (6) holding a title input (7). -/
def sampleForm (v : JSVal) (vis : Bool) : Dom :=
  [ ⟨"fieldset", none, none, .undefined, true⟩,
    ⟨"div", none, some 0, .undefined, true⟩,
    ⟨"select", some "id_sections-0-type", some 1, v, true⟩,
    ⟨"div", none, some 0, .undefined, vis⟩,
    ⟨"input", some "id_sections-0-plugin_identifier", some 3, .str "", true⟩,
    ⟨"div", some "plugin_row", some 0, .undefined, vis⟩,
    ⟨"div", none, some 0, .undefined, vis⟩,
    ⟨"input", some "id_sections-0-title", some 6, .str "", true⟩ ]

/-- Document order: the parent of an element precedes it in the arena. -/
def DocOrder (dom : Dom) : Prop :=
  ∀ i ∈ List.range dom.length, ∀ p ∈ (dom[i]?).bind Node.parent, p < i

instance (dom : Dom) : Decidable (DocOrder dom) := by
  unfold DocOrder; infer_instance

/-- The relation `Ancestor dom a d`: `a` is a proper ancestor of `d` in the tree
given by the parent pointers. -/
inductive Ancestor (dom : Dom) : Nat → Nat → Prop where
  | parent {a d : Nat} {n : Node} :
      dom[d]? = some n → n.parent = some a → Ancestor dom a d
  | step {a p d : Nat} {n : Node} :
      dom[d]? = some n → n.parent = some p → Ancestor dom a p → Ancestor dom a d

/-- The relation `Closest dom tag i f`: `f` is the nearest element with tag `tag`
among `i` and its ancestors. -/
inductive Closest (dom : Dom) (tag : String) : Nat → Nat → Prop where
  | here {i : Nat} {n : Node} :
      dom[i]? = some n → n.tag = tag → Closest dom tag i i
  | up {i p f : Nat} {n : Node} :
      dom[i]? = some n → n.tag ≠ tag → n.parent = some p → Closest dom tag p f →
      Closest dom tag i f

/-- The element with its display state forgotten. -/
def skeleton (n : Node) : Node := { n with visible := true }

/-- Two documents that differ at most in the display states of their elements. -/
def SameStructure (dom₁ dom₂ : Dom) : Prop := dom₁.map skeleton = dom₂.map skeleton

/-! ## The rich-text inputs (ckeditor-nested-inline-fix.js) -/

/-- A call into the CKEDITOR library, as recorded in the log of the handler:
`CKEDITOR.plugins.addExternal(name, path, file)`, where an argument that is
`undefined` is `none`, and `CKEDITOR.replace(id, config)`. The calls are taken to
return normally. -/
inductive Call where
  | addExternal (name path file : Option String)
  | replace (id : String) (config : JSVal)
  deriving DecidableEq, Repr

/-- The call is a `CKEDITOR.replace`. -/
def Call.isReplace : Call → Bool
  | .addExternal _ _ _ => false
  | .replace _ _ => true

/-- An element matched by `textarea[data-type=ckeditortype]`: what `.attr('id')`
returns (`none` is `undefined`, the attribute is absent), and what `.data(key)` returns
for `processed`, for `external-plugin-resources` (an array of arrays of strings) and
for `config`. -/
structure Textarea where
  id : Option String
  processed : JSVal
  resources : List (List String)
  config : JSVal
  deriving DecidableEq, Repr

/-- An exception raised by the handler itself: the `TypeError` of calling `.indexOf`
on `undefined`. -/
inductive JSError where
  | typeError
  deriving DecidableEq, Repr

/-- The inner callback of the handler (line 9):
`CKEDITOR.plugins.addExternal(this[0], this[1], this[2])`. -/
def registerResource (r : List String) : Call :=
  .addExternal r[0]? r[1]? r[2]?

/-- The callback of `.each` (lines 6 to 12) on one textarea: the textarea after the
callback and the calls it made, or the exception it raised. The operator `&&`
evaluates `.attr('id').indexOf(..)` only when the flag test holds. -/
def eachTextarea (t : Textarea) : Except JSError (Textarea × List Call) :=
  if t.processed.looseEqZeroStr then
    match t.id with
    | none => .error .typeError
    | some id =>
      if indexOf id "__prefix__" = -1 then
        .ok ({ t with processed := .str "1" },
          t.resources.map registerResource ++ [.replace id t.config])
      else .ok (t, [])
  else .ok (t, [])

/-- The outcome of one run of the handler: the textareas after the run, the calls
made for each textarea that the loop visited, in order, and the exception that ended
the loop, if any. -/
structure Scan where
  fields : List Textarea
  trace : List (List Call)
  thrown : Option JSError
  deriving DecidableEq, Repr

/-- The log of CKEDITOR calls of a run. -/
def Scan.log (r : Scan) : List Call := r.trace.flatten

/-- The `djnesting:added` handler on the textareas matched by the selector, in
document order: `.each` runs the callback on one textarea after the other, and an
exception ends the loop with the remaining textareas untouched. -/
def handler : List Textarea → Scan
  | [] => ⟨[], [], none⟩
  | t :: ts =>
    match eachTextarea t with
    | .error e => ⟨t :: ts, [], some e⟩
    | .ok (t', calls) =>
      ⟨t' :: (handler ts).fields, calls :: (handler ts).trace, (handler ts).thrown⟩

/-- The textareas after `n` successive `djnesting:added` notifications. -/
def afterNotifications : Nat → List Textarea → List Textarea
  | 0, fs => fs
  | n + 1, fs => afterNotifications n (handler fs).fields

/-- A template row of an inline formset, with its placeholder identifier. -/
def templateInput : Textarea :=
  ⟨some "id_sections-__prefix__-content", .num 0,
    [["footnotes", "/static/footnotes/", "plugin.js"]], .obj "[object Object]"⟩

/-- A freshly added row, rendered with `data-processed="0"`. -/
def freshInput : Textarea :=
  ⟨some "id_sections-2-content", .num 0,
    [["footnotes", "/static/footnotes/", "plugin.js"]], .obj "[object Object]"⟩

/-- A row whose editor was instantiated earlier. -/
def processedInput : Textarea :=
  ⟨some "id_sections-0-content", .str "1", [], .obj "[object Object]"⟩

/-- A textarea without an `id` attribute, with `data-processed="0"`. -/
def anonymousInput : Textarea :=
  ⟨none, .num 0, [], .obj "[object Object]"⟩

/-! ## The stylesheet build script (build.js) -/

/-- A file: its content and its modification time in milliseconds. -/
structure File where
  content : String
  mtime : Nat
  deriving DecidableEq, Repr

/-- An exception of the build script: the error that `stylus.render` passes to its
callback, or the `ENOENT` of `fs.readFileSync` and `fs.statSync` on a missing file. -/
inductive BuildError where
  | compile (err : String)
  | noEntry (path : String)
  deriving DecidableEq, Repr

deriving instance DecidableEq for Except

/-- A line written by `console.log`: `"Compiled " + css.length + " bytes"`. -/
inductive Output where
  | compiled (bytes : Nat)
  deriving DecidableEq, Repr

/-- The `length` of a JavaScript string: its number of UTF-16 code units. -/
def utf16Length (s : String) : Nat :=
  (s.data.map fun c => if c.toNat < 65536 then 1 else 2).sum

/-- The state of the build script: the `busy` variable, the files `skin.styl` and
`skin.css` (`none` when missing), the sources handed to `stylus.render` whose callback
has not run yet, the numbers of `fs.readFileSync` and `stylus.render` calls made so
far, and the console. -/
structure BuildState where
  busy : Bool
  styl : Option File
  css : Option File
  rendering : List String
  reads : Nat
  renders : Nat
  console : List Output
  deriving DecidableEq, Repr

/-- The state at line 4: `busy = false`, nothing read or rendered yet. -/
def initial (styl css : Option File) : BuildState :=
  ⟨false, styl, css, [], 0, 0, []⟩

/-- The function `build()` up to the call of `stylus.render` (lines 5 to 12). -/
def build (s : BuildState) : Except BuildError Unit × BuildState :=
  if s.busy then (.ok (), s)
  else
    match s.styl with
    | none => (.error (.noEntry "skin.styl"), { s with busy := true, reads := s.reads + 1 })
    | some f =>
      (.ok (), { s with
        busy := true
        reads := s.reads + 1
        rendering := s.rendering ++ [f.content]
        renders := s.renders + 1 })

/-- The callback of `stylus.render` (lines 13 to 16), run for the oldest outstanding
render at time `now`; `render` is the stylus compiler. An error is thrown before
`busy = false` is reached. -/
def renderDone (render : String → Except String String) (now : Nat) (s : BuildState) :
    Except BuildError Unit × BuildState :=
  match s.rendering with
  | [] => (.ok (), s)
  | styl :: rest =>
    match render styl with
    | .error err => (.error (.compile err), { s with rendering := rest })
    | .ok css =>
      (.ok (), { s with
        rendering := rest
        css := some ⟨css, now⟩
        console := s.console ++ [.compiled (utf16Length css)]
        busy := false })

/-- The callback of `setInterval` (lines 24 to 28). -/
def tick (s : BuildState) : Except BuildError Unit × BuildState :=
  match s.css with
  | none => (.error (.noEntry "skin.css"), s)
  | some targetStat =>
    match s.styl with
    | none => (.error (.noEntry "skin.styl"), s)
    | some sourceStat =>
      if sourceStat.mtime > targetStat.mtime then build s else (.ok (), s)

/-- One run of `build()` together with the callback of its render, as when
`stylus.render` calls back before it returns. -/
def buildAndRender (render : String → Except String String) (now : Nat) (s : BuildState) :
    Except BuildError Unit × BuildState :=
  if s.busy then (.ok (), s)
  else
    match build s with
    | (.error e, s') => (.error e, s')
    | (.ok (), s') => renderDone render now s'

/-- A step of the build loop: a `build()` trigger, the completion of a render, a tick
of the watch timer, or a change of one of the two files from outside. -/
inductive Step where
  | build
  | renderDone (now : Nat)
  | tick
  | writeStyl (f : Option File)
  | writeCss (f : Option File)
  deriving DecidableEq, Repr

/-- The node process that runs the script: the state of the script and, once an
exception has gone uncaught, that exception. Nothing in build.js catches an exception,
so the first one thrown ends the process. -/
structure Process where
  state : BuildState
  exited : Option BuildError
  deriving DecidableEq, Repr

/-- The process at line 4, with the two files as they are found. -/
def start (styl css : Option File) : Process :=
  ⟨initial styl css, none⟩

/-- The process after a piece of the script has run: nothing runs once the process
has exited, and an exception ends the process in the state reached when it was
thrown. -/
def Process.after (p : Process) (op : BuildState → Except BuildError Unit × BuildState) :
    Process :=
  match p.exited with
  | some _ => p
  | none =>
    match op p.state with
    | (.error e, s) => ⟨s, some e⟩
    | (.ok (), s) => ⟨s, none⟩

/-- The process after one step. The files can change from outside at any time, also
after the process has exited. -/
def step (render : String → Except String String) (p : Process) : Step → Process
  | .build => p.after build
  | .renderDone now => p.after (renderDone render now)
  | .tick => p.after tick
  | .writeStyl f => { p with state := { p.state with styl := f } }
  | .writeCss f => { p with state := { p.state with css := f } }

/-- The process after a sequence of steps. -/
def run (render : String → Except String String) (steps : List Step) (p : Process) :
    Process :=
  steps.foldl (step render) p

/-- At most one render is outstanding, and none when `busy` is clear. -/
def AtMostOne (s : BuildState) : Prop :=
  s.rendering.length ≤ 1 ∧ (s.busy = false → s.rendering = [])

/-- A compiler that rejects the source "bad" and accepts every other source. -/
def sampleRender (styl : String) : Except String String :=
  if styl = "bad" then .error "ParseError" else .ok ("/* css */" ++ styl)

/-- The files before a build of a source that the sample compiler rejects. -/
def brokenStart : BuildState :=
  initial (some ⟨"bad", 10⟩) (some ⟨"old", 5⟩)

/-- The variables and files as the failed compile of "bad" leaves them, with the source
corrected afterwards at time 20: `busy` is still `true`, no render is outstanding,
`skin.css` is the old one. -/
def afterFailure : BuildState :=
  ⟨true, some ⟨"good", 20⟩, some ⟨"old", 5⟩, [], 1, 1, []⟩

/-! ## Theorems -/

theorem indexOfFrom_eq_neg_one (pat : List Char) :
    ∀ (l : List Char) (k : Nat), indexOfFrom pat l k = -1 ↔ ¬ pat <:+: l
  | [], k => by
    unfold indexOfFrom
    by_cases h : pat = []
    · simp [h]
    · simp [h]
  | c :: cs, k => by
    unfold indexOfFrom
    by_cases h : pat.isPrefixOf (c :: cs) = true
    · have hp : pat <+: c :: cs := List.isPrefixOf_iff_prefix.mp h
      simp only [h, if_true]
      constructor
      · intro h1; omega
      · intro h1; exact absurd hp.isInfix h1
    · have hp : ¬ pat <+: c :: cs := fun hp => h (List.isPrefixOf_iff_prefix.mpr hp)
      simp only [h]
      rw [if_neg (by simp), indexOfFrom_eq_neg_one pat cs (k + 1), List.infix_cons_iff]
      tauto

theorem indexOf_ne_neg_one (s pat : String) :
    indexOf s pat ≠ -1 ↔ pat.data <:+: s.data := by
  unfold indexOf
  rw [Ne, indexOfFrom_eq_neg_one]
  exact not_not

theorem idContains_iff (pat : String) (n : Node) :
    idContains pat n = true ↔ ∃ s, n.id = some s ∧ pat.data <:+: s.data := by
  unfold idContains
  cases h : n.id with
  | none => simp
  | some s => simp [indexOf_ne_neg_one]

theorem DocOrder.lt {dom : Dom} (hdom : DocOrder dom) {i p : Nat} {n : Node}
    (hn : dom[i]? = some n) (hp : n.parent = some p) : p < i := by
  have hi : i < dom.length := by
    rcases List.getElem?_eq_some.mp hn with ⟨h, _⟩
    exact h
  apply hdom i (List.mem_range.mpr hi) p
  simp [hn, hp]

theorem getElem?_lt {dom : Dom} {i : Nat} {n : Node} (hn : dom[i]? = some n) :
    i < dom.length := by
  rcases List.getElem?_eq_some.mp hn with ⟨h, _⟩
  exact h

theorem exists_getElem? {dom : Dom} {i : Nat} (h : i < dom.length) :
    ∃ n, dom[i]? = some n :=
  ⟨dom[i], List.getElem?_eq_getElem h⟩

theorem closestFrom_iff {dom : Dom} (hdom : DocOrder dom) (tag : String) (f : Nat) :
    ∀ (fuel i : Nat), i < fuel → (closestFrom dom tag fuel i = some f ↔ Closest dom tag i f)
  | 0, i, h => absurd h (Nat.not_lt_zero _)
  | fuel + 1, i, h => by
    unfold closestFrom
    cases hget : dom[i]? with
    | none =>
      refine ⟨fun h0 => (nomatch h0), fun hrel => ?_⟩
      cases hrel with
      | here h1 _ => simp [hget] at h1
      | up h1 _ _ _ => simp [hget] at h1
    | some n =>
      simp only
      by_cases ht : n.tag = tag
      · rw [if_pos ht]
        constructor
        · intro h1
          have h2 : i = f := Option.some.inj h1
          subst h2
          exact Closest.here hget ht
        · intro hrel
          cases hrel with
          | here _ _ => rfl
          | up h1 h2 _ _ =>
            rw [hget] at h1
            cases h1
            exact absurd ht h2
      · rw [if_neg ht]
        cases hp : n.parent with
        | none =>
          refine ⟨fun h0 => (nomatch h0), fun hrel => ?_⟩
          cases hrel with
          | here h1 h2 =>
            rw [hget] at h1
            cases h1
            exact absurd h2 ht
          | up h1 _ h3 _ =>
            rw [hget] at h1
            cases h1
            simp [hp] at h3
        | some p =>
          simp only
          have hlt : p < i := hdom.lt hget hp
          rw [closestFrom_iff hdom tag f fuel p (by omega)]
          constructor
          · intro hrel
            exact Closest.up hget ht hp hrel
          · intro hrel
            cases hrel with
            | here h1 h2 =>
              rw [hget] at h1
              cases h1
              exact absurd h2 ht
            | up h1 _ h3 h4 =>
              rw [hget] at h1
              cases h1
              rw [hp] at h3
              cases h3
              exact h4

theorem closest_iff {dom : Dom} (hdom : DocOrder dom) (tag : String) (i f : Nat) :
    closest dom tag i = some f ↔ Closest dom tag i f := by
  unfold closest
  by_cases hi : i < dom.length
  · exact closestFrom_iff hdom tag f dom.length i hi
  · have hnone : dom[i]? = none := List.getElem?_eq_none (by omega)
    constructor
    · intro h
      cases hl : dom.length with
      | zero => rw [hl] at h; simp [closestFrom] at h
      | succ k => rw [hl] at h; simp [closestFrom, hnone] at h
    · intro hrel
      cases hrel with
      | here h1 _ => simp [hnone] at h1
      | up h1 _ _ _ => simp [hnone] at h1

theorem containsFrom_iff {dom : Dom} (hdom : DocOrder dom) (a : Nat) :
    ∀ (fuel d : Nat), d < fuel → (containsFrom dom a fuel d = true ↔ Ancestor dom a d)
  | 0, d, h => absurd h (Nat.not_lt_zero _)
  | fuel + 1, d, h => by
    unfold containsFrom
    cases hget : dom[d]? with
    | none =>
      simp only [Bool.false_eq_true, false_iff]
      intro hrel
      cases hrel with
      | parent h1 _ => simp [hget] at h1
      | step h1 _ _ => simp [hget] at h1
    | some n =>
      simp only
      cases hp : n.parent with
      | none =>
        simp only [Bool.false_eq_true, false_iff]
        intro hrel
        cases hrel with
        | parent h1 h2 =>
          rw [hget] at h1
          cases h1
          simp [hp] at h2
        | step h1 h2 _ =>
          rw [hget] at h1
          cases h1
          simp [hp] at h2
      | some p =>
        simp only
        have hlt : p < d := hdom.lt hget hp
        by_cases hpa : p = a
        · rw [if_pos hpa]
          simp only [true_iff]
          exact Ancestor.parent hget (hpa ▸ hp)
        · rw [if_neg hpa, containsFrom_iff hdom a fuel p (by omega)]
          constructor
          · intro hrel
            exact Ancestor.step hget hp hrel
          · intro hrel
            cases hrel with
            | parent h1 h2 =>
              rw [hget] at h1
              cases h1
              rw [hp] at h2
              exact absurd (Option.some.inj h2) hpa
            | step h1 h2 h3 =>
              rw [hget] at h1
              cases h1
              rw [hp] at h2
              cases h2
              exact h3

theorem contains_iff {dom : Dom} (hdom : DocOrder dom) (a d : Nat) :
    contains dom a d = true ↔ Ancestor dom a d := by
  unfold contains
  by_cases hd : d < dom.length
  · exact containsFrom_iff hdom a dom.length d hd
  · have hnone : dom[d]? = none := List.getElem?_eq_none (by omega)
    constructor
    · intro h
      cases hl : dom.length with
      | zero => rw [hl] at h; simp [containsFrom] at h
      | succ k => rw [hl] at h; simp [containsFrom, hnone] at h
    · intro hrel
      cases hrel with
      | parent h1 _ => simp [hnone] at h1
      | step h1 _ _ => simp [hnone] at h1

theorem mem_children (dom : Dom) (f c : Nat) :
    c ∈ children dom f ↔ ∃ n, dom[c]? = some n ∧ n.parent = some f := by
  unfold children
  rw [List.mem_filter, List.mem_range]
  constructor
  · rintro ⟨_, h2⟩
    cases hget : dom[c]? with
    | none => simp [hget] at h2
    | some n =>
      rw [hget] at h2
      exact ⟨n, rfl, of_decide_eq_true h2⟩
  · rintro ⟨n, hn, hp⟩
    refine ⟨getElem?_lt hn, ?_⟩
    rw [hn]
    exact decide_eq_true hp

theorem has_iff (dom : Dom) (sel : Node → Bool) (c : Nat) :
    has dom sel c = true ↔
      ∃ d n, dom[d]? = some n ∧ sel n = true ∧ contains dom c d = true := by
  unfold has
  rw [List.any_eq_true]
  constructor
  · rintro ⟨d, _, h2⟩
    cases hget : dom[d]? with
    | none => simp [hget] at h2
    | some n =>
      rw [hget] at h2
      simp only [Bool.and_eq_true] at h2
      exact ⟨d, n, hget, h2.1, h2.2⟩
  · rintro ⟨d, n, hn, hs, hc⟩
    refine ⟨d, List.mem_range.mpr (getElem?_lt hn), ?_⟩
    rw [hn]
    simp [hs, hc]

theorem strictEqStr_iff (v : JSVal) (s : String) :
    v.strictEqStr s = true ↔ v = .str s := by
  cases v <;> simp [JSVal.strictEqStr]

theorem setDisplay_length (dom : Dom) (sel : List Nat) (b : Bool) :
    (setDisplay dom sel b).length = dom.length := by
  simp [setDisplay]

theorem setDisplay_getElem? (dom : Dom) (sel : List Nat) (b : Bool) (i : Nat) :
    (setDisplay dom sel b)[i]? =
      (dom[i]?).map fun n => if i ∈ sel then { n with visible := b } else n := by
  simp [setDisplay, List.getElem?_mapIdx]

theorem setDisplay_sameStructure (dom : Dom) (sel : List Nat) (b : Bool) :
    SameStructure (setDisplay dom sel b) dom := by
  unfold SameStructure
  apply List.ext_getElem?
  intro i
  rw [List.getElem?_map, List.getElem?_map, setDisplay_getElem?]
  cases dom[i]? with
  | none => rfl
  | some n =>
    by_cases h : i ∈ sel <;> simp [h, skeleton]

theorem SameStructure.symm {dom₁ dom₂ : Dom} (hs : SameStructure dom₁ dom₂) :
    SameStructure dom₂ dom₁ := Eq.symm hs

theorem SameStructure.length_eq {dom₁ dom₂ : Dom} (hs : SameStructure dom₁ dom₂) :
    dom₁.length = dom₂.length := by
  have h := congrArg List.length hs
  simpa using h

theorem SameStructure.get_none {dom₁ dom₂ : Dom} (hs : SameStructure dom₁ dom₂) {i : Nat}
    (h : dom₁[i]? = none) : dom₂[i]? = none := by
  rw [List.getElem?_eq_none_iff] at h ⊢
  rw [← hs.length_eq]
  exact h

theorem SameStructure.get_some {dom₁ dom₂ : Dom} (hs : SameStructure dom₁ dom₂) {i : Nat}
    {n : Node} (h : dom₁[i]? = some n) :
    ∃ m, dom₂[i]? = some m ∧ m.tag = n.tag ∧ m.id = n.id ∧ m.parent = n.parent ∧
      m.value = n.value := by
  have h1 : (dom₁.map skeleton)[i]? = (dom₂.map skeleton)[i]? := by rw [hs]
  rw [List.getElem?_map, List.getElem?_map, h] at h1
  cases h2 : dom₂[i]? with
  | none => rw [h2] at h1; simp at h1
  | some m =>
    rw [h2] at h1
    simp only [Option.map_some', Option.some.injEq, skeleton, Node.mk.injEq] at h1
    obtain ⟨a, b, c, d, _⟩ := h1
    exact ⟨m, rfl, a.symm, b.symm, c.symm, d.symm⟩

theorem closestFrom_congr {dom₁ dom₂ : Dom} (hs : SameStructure dom₁ dom₂) (tag : String) :
    ∀ (fuel i : Nat), closestFrom dom₁ tag fuel i = closestFrom dom₂ tag fuel i
  | 0, _ => rfl
  | fuel + 1, i => by
    unfold closestFrom
    cases h1 : dom₁[i]? with
    | none => rw [hs.get_none h1]
    | some n =>
      obtain ⟨m, hm, ht, _, hp, _⟩ := hs.get_some h1
      rw [hm]
      simp only [ht, hp]
      cases n.parent with
      | none => rfl
      | some q => simp only [closestFrom_congr hs tag fuel q]

theorem containsFrom_congr {dom₁ dom₂ : Dom} (hs : SameStructure dom₁ dom₂) (a : Nat) :
    ∀ (fuel d : Nat), containsFrom dom₁ a fuel d = containsFrom dom₂ a fuel d
  | 0, _ => rfl
  | fuel + 1, d => by
    unfold containsFrom
    cases h1 : dom₁[d]? with
    | none => rw [hs.get_none h1]
    | some n =>
      obtain ⟨m, hm, _, _, hp, _⟩ := hs.get_some h1
      rw [hm]
      simp only [hp]
      cases n.parent with
      | none => rfl
      | some q => simp only [containsFrom_congr hs a fuel q]

theorem pluginFields_congr {dom₁ dom₂ : Dom} (hs : SameStructure dom₁ dom₂)
    (typeSelect : Nat) : pluginFields dom₁ typeSelect = pluginFields dom₂ typeSelect := by
  have hchildren : ∀ f, children dom₁ f = children dom₂ f := by
    intro f
    unfold children
    rw [hs.length_eq]
    apply List.filter_congr
    intro i _
    cases h1 : dom₁[i]? with
    | none => rw [hs.get_none h1]
    | some n =>
      obtain ⟨m, hm, _, _, hp, _⟩ := hs.get_some h1
      rw [hm]
      simp only [hp]
  have hhas : ∀ c, has dom₁ (idContains "plugin") c = has dom₂ (idContains "plugin") c := by
    intro c
    unfold has
    rw [hs.length_eq]
    congr 1
    funext d
    cases h1 : dom₁[d]? with
    | none => rw [hs.get_none h1]
    | some n =>
      obtain ⟨m, hm, _, hid, _, _⟩ := hs.get_some h1
      rw [hm]
      simp only [idContains, hid, contains, containsFrom_congr hs c, hs.length_eq]
  unfold pluginFields closest
  rw [closestFrom_congr hs, hs.length_eq]
  cases closestFrom dom₂ "fieldset" dom₂.length typeSelect with
  | none => rfl
  | some f =>
    simp only [hchildren]
    apply List.filter_congr
    intro c _
    exact hhas c

theorem val_congr {dom₁ dom₂ : Dom} (hs : SameStructure dom₁ dom₂) (i : Nat) :
    val dom₁ i = val dom₂ i := by
  unfold val
  cases h1 : dom₁[i]? with
  | none => rw [hs.get_none h1]
  | some n =>
    obtain ⟨m, hm, _, _, _, hv⟩ := hs.get_some h1
    rw [hm]
    exact hv.symm

theorem mem_pluginFields_lt {dom : Dom} {typeSelect i : Nat}
    (hi : i ∈ pluginFields dom typeSelect) : i < dom.length := by
  unfold pluginFields at hi
  cases h : closest dom "fieldset" typeSelect with
  | none => rw [h] at hi; simp at hi
  | some f =>
    rw [h] at hi
    obtain ⟨n, hn, _⟩ := (mem_children dom f i).mp (List.mem_filter.mp hi).1
    exact getElem?_lt hn

theorem setPluginFieldsVisibility_eq (dom : Dom) (typeSelect : Nat) :
    setPluginFieldsVisibility dom typeSelect =
      setDisplay dom (pluginFields dom typeSelect)
        (!(val dom typeSelect).strictEqStr "1") := by
  unfold setPluginFieldsVisibility hide jqShow
  cases (val dom typeSelect).strictEqStr "1" <;> simp

/-! ### Field visibility controller -/

/-- C1: after `setPluginFieldsVisibility` runs on a type select, every element of the
select's plugin-field group is hidden if the select's value is the string "1" and is
visible for every other value, among them the empty string, "01", " 1", the number 1
and `null`. -/
theorem setPluginFieldsVisibility_hidden_iff_one (dom : Dom) (typeSelect i : Nat)
    (hi : i ∈ pluginFields dom typeSelect) :
    ∃ n, (setPluginFieldsVisibility dom typeSelect)[i]? = some n ∧
      (val dom typeSelect = .str "1" → n.visible = false) ∧
      (val dom typeSelect ≠ .str "1" → n.visible = true) ∧
      (∀ v ∈ [JSVal.str "", .str "01", .str " 1", .num 1, .null],
        val dom typeSelect = v → n.visible = true) := by
  obtain ⟨n, hn⟩ : ∃ n, dom[i]? = some n :=
    exists_getElem? (mem_pluginFields_lt hi)
  have hne : val dom typeSelect ≠ .str "1" →
      (val dom typeSelect).strictEqStr "1" = false := by
    intro h
    cases hb : (val dom typeSelect).strictEqStr "1" with
    | false => rfl
    | true => exact absurd ((strictEqStr_iff _ _).mp hb) h
  refine ⟨{ n with visible := !(val dom typeSelect).strictEqStr "1" }, ?_, ?_, ?_, ?_⟩
  · rw [setPluginFieldsVisibility_eq, setDisplay_getElem?, hn]
    simp [hi]
  · intro h
    simp [(strictEqStr_iff _ _).mpr h]
  · intro h
    simp [hne h]
  · intro v hv h
    have : val dom typeSelect ≠ .str "1" := by
      rw [h]
      simp only [List.mem_cons, List.mem_singleton, List.not_mem_nil, or_false] at hv
      rcases hv with rfl | rfl | rfl | rfl | rfl <;> decide
    simp [hne this]

/-- Witness of C1 on the sample form with the select at "01": row 3 is shown. -/
theorem setPluginFieldsVisibility_hidden_iff_one_witness :
    3 ∈ pluginFields (sampleForm (.str "01") false) 2 ∧
    ∃ n, (setPluginFieldsVisibility (sampleForm (.str "01") false) 2)[3]? = some n ∧
      (val (sampleForm (.str "01") false) 2 = .str "1" → n.visible = false) ∧
      (val (sampleForm (.str "01") false) 2 ≠ .str "1" → n.visible = true) ∧
      (∀ v ∈ [JSVal.str "", .str "01", .str " 1", .num 1, .null],
        val (sampleForm (.str "01") false) 2 = v → n.visible = true) :=
  ⟨by decide, setPluginFieldsVisibility_hidden_iff_one _ 2 3 (by decide)⟩

/-- C9 as stated fails on the sample form: row 5 is a child of the select's fieldset
and its own identifier "plugin_row" contains "plugin", yet the call leaves it out
(it stays visible while the select is at "1"); row 3 has no identifier at all and is
hidden, because it holds an input whose identifier contains "plugin". -/
theorem pluginFields_ignores_own_id :
    closest (sampleForm (.str "1") true) "fieldset" 2 = some 0 ∧
    (sampleForm (.str "1") true)[5]? =
      some ⟨"div", some "plugin_row", some 0, .undefined, true⟩ ∧
    idContains "plugin" ⟨"div", some "plugin_row", some 0, .undefined, true⟩ = true ∧
    5 ∉ pluginFields (sampleForm (.str "1") true) 2 ∧
    (setPluginFieldsVisibility (sampleForm (.str "1") true) 2)[5]? =
      some ⟨"div", some "plugin_row", some 0, .undefined, true⟩ ∧
    (sampleForm (.str "1") true)[3]? = some ⟨"div", none, some 0, .undefined, true⟩ ∧
    3 ∈ pluginFields (sampleForm (.str "1") true) 2 ∧
    (setPluginFieldsVisibility (sampleForm (.str "1") true) 2)[3]? =
      some ⟨"div", none, some 0, .undefined, false⟩ := by
  decide

/-- C9, amended: in a document listed in document order, the set that
`setPluginFieldsVisibility` hides or shows is exactly the set of children of the
select's closest enclosing fieldset that have a descendant element whose identifier
contains "plugin"; the call sets the display state of these elements and of no other,
and when the set is empty the call changes nothing. -/
theorem pluginFields_exact (dom : Dom) (hdom : DocOrder dom) (typeSelect : Nat) :
    (∀ i, i ∈ pluginFields dom typeSelect ↔
      ∃ f, Closest dom "fieldset" typeSelect f ∧
        (∃ n, dom[i]? = some n ∧ n.parent = some f) ∧
        ∃ d m s, Ancestor dom i d ∧ dom[d]? = some m ∧ m.id = some s ∧
          "plugin".data <:+: s.data) ∧
    (∀ i, (setPluginFieldsVisibility dom typeSelect)[i]? =
      (dom[i]?).map fun n =>
        if i ∈ pluginFields dom typeSelect then
          { n with visible := !(val dom typeSelect).strictEqStr "1" }
        else n) ∧
    (pluginFields dom typeSelect = [] → setPluginFieldsVisibility dom typeSelect = dom) := by
  refine ⟨?_, ?_, ?_⟩
  · intro i
    unfold pluginFields
    cases hc : closest dom "fieldset" typeSelect with
    | none =>
      simp only [List.not_mem_nil, false_iff]
      rintro ⟨f, hf, _⟩
      rw [(closest_iff hdom _ _ _).mpr hf] at hc
      cases hc
    | some f =>
      simp only [List.mem_filter, mem_children, has_iff, idContains_iff]
      constructor
      · rintro ⟨hchild, d, m, hm, ⟨s, hs, hinf⟩, hcont⟩
        exact ⟨f, (closest_iff hdom _ _ _).mp hc, hchild, d, m, s,
          (contains_iff hdom _ _).mp hcont, hm, hs, hinf⟩
      · rintro ⟨g, hg, hchild, d, m, s, hanc, hm, hs, hinf⟩
        have hgf : g = f := by
          have := (closest_iff hdom _ _ _).mpr hg
          rw [hc] at this
          exact (Option.some.inj this).symm
        subst hgf
        exact ⟨hchild, d, m, hm, ⟨s, hs, hinf⟩, (contains_iff hdom _ _).mpr hanc⟩
  · intro i
    rw [setPluginFieldsVisibility_eq, setDisplay_getElem?]
  · intro h
    apply List.ext_getElem?
    intro i
    rw [setPluginFieldsVisibility_eq, setDisplay_getElem?, h]
    cases dom[i]? <;> simp

/-- Witness of the amended C9 on the sample form, which is in document order. -/
theorem pluginFields_exact_witness :
    DocOrder (sampleForm (.str "1") true) ∧
    (3 ∈ pluginFields (sampleForm (.str "1") true) 2 ↔
      ∃ f, Closest (sampleForm (.str "1") true) "fieldset" 2 f ∧
        (∃ n, (sampleForm (.str "1") true)[3]? = some n ∧ n.parent = some f) ∧
        ∃ d m s, Ancestor (sampleForm (.str "1") true) 3 d ∧
          (sampleForm (.str "1") true)[d]? = some m ∧ m.id = some s ∧
          "plugin".data <:+: s.data) :=
  ⟨by decide, (pluginFields_exact _ (by decide) 2).1 3⟩

/-- C10: frame property of `setPluginFieldsVisibility`. The call keeps the number of
elements; the elements whose display state it sets are children of the select's
closest enclosing fieldset; every element outside the plugin-field set is unchanged;
of every element only the display state can change, so the select's value is
unchanged; the resulting display state of the plugin-field set is the same from any
document that differs only in display states; and calling twice equals calling once. -/
theorem setPluginFieldsVisibility_frame (dom : Dom) (typeSelect : Nat) :
    (setPluginFieldsVisibility dom typeSelect).length = dom.length ∧
    (∀ i ∈ pluginFields dom typeSelect, ∃ f n,
      closest dom "fieldset" typeSelect = some f ∧ dom[i]? = some n ∧ n.parent = some f) ∧
    (∀ i, i ∉ pluginFields dom typeSelect →
      (setPluginFieldsVisibility dom typeSelect)[i]? = dom[i]?) ∧
    (∀ (i : Nat) (n : Node), dom[i]? = some n →
      ∃ n' : Node, (setPluginFieldsVisibility dom typeSelect)[i]? = some n' ∧
      n'.tag = n.tag ∧ n'.id = n.id ∧ n'.parent = n.parent ∧ n'.value = n.value) ∧
    val (setPluginFieldsVisibility dom typeSelect) typeSelect = val dom typeSelect ∧
    (∀ dom₂, SameStructure dom dom₂ →
      pluginFields dom₂ typeSelect = pluginFields dom typeSelect ∧
      ∀ i ∈ pluginFields dom typeSelect,
        ((setPluginFieldsVisibility dom₂ typeSelect)[i]?).map Node.visible =
          ((setPluginFieldsVisibility dom typeSelect)[i]?).map Node.visible) ∧
    setPluginFieldsVisibility (setPluginFieldsVisibility dom typeSelect) typeSelect =
      setPluginFieldsVisibility dom typeSelect := by
  have hsame : SameStructure (setPluginFieldsVisibility dom typeSelect) dom := by
    rw [setPluginFieldsVisibility_eq]
    exact setDisplay_sameStructure _ _ _
  refine ⟨?_, ?_, ?_, ?_, ?_, ?_, ?_⟩
  · rw [setPluginFieldsVisibility_eq, setDisplay_length]
  · intro i hi
    unfold pluginFields at hi
    cases hc : closest dom "fieldset" typeSelect with
    | none => rw [hc] at hi; simp at hi
    | some f =>
      rw [hc] at hi
      obtain ⟨n, hn, hp⟩ := (mem_children dom f i).mp (List.mem_filter.mp hi).1
      exact ⟨f, n, rfl, hn, hp⟩
  · intro i hi
    rw [setPluginFieldsVisibility_eq, setDisplay_getElem?]
    cases dom[i]? <;> simp [hi]
  · intro i n hn
    obtain ⟨m, hm, h1, h2, h3, h4⟩ := hsame.symm.get_some hn
    exact ⟨m, hm, h1, h2, h3, h4⟩
  · exact val_congr hsame typeSelect
  · intro dom₂ hs
    have hpf := pluginFields_congr hs typeSelect
    refine ⟨hpf.symm, ?_⟩
    intro i hi
    obtain ⟨n, hn⟩ : ∃ n, dom[i]? = some n :=
      exists_getElem? (mem_pluginFields_lt hi)
    obtain ⟨m, hm, _⟩ := hs.get_some hn
    rw [setPluginFieldsVisibility_eq, setPluginFieldsVisibility_eq, setDisplay_getElem?,
      setDisplay_getElem?, ← hpf, ← val_congr hs, hn, hm]
    simp [hi]
  · have hpf := pluginFields_congr hsame typeSelect
    have hval := val_congr hsame typeSelect
    rw [setPluginFieldsVisibility_eq (setPluginFieldsVisibility dom typeSelect), hpf, hval]
    apply List.ext_getElem?
    intro i
    rw [setDisplay_getElem?, setPluginFieldsVisibility_eq, setDisplay_getElem?]
    cases dom[i]? with
    | none => rfl
    | some n => by_cases h : i ∈ pluginFields dom typeSelect <;> simp [h]

/-! ### Dynamic widget initializer -/

theorem eachTextarea_skip_processed {t : Textarea}
    (h : t.processed.looseEqZeroStr = false) : eachTextarea t = .ok (t, []) := by
  simp [eachTextarea, h]

theorem eachTextarea_skip_template {t : Textarea} {id : String} (hid : t.id = some id)
    (hmark : "__prefix__".data <:+: id.data) : eachTextarea t = .ok (t, []) := by
  have h : indexOf id "__prefix__" ≠ -1 := (indexOf_ne_neg_one _ _).mpr hmark
  unfold eachTextarea
  cases t.processed.looseEqZeroStr <;> simp [hid, h]

theorem eachTextarea_init {t : Textarea} {id : String} (hid : t.id = some id)
    (hmark : ¬ "__prefix__".data <:+: id.data) (hflag : t.processed.looseEqZeroStr = true) :
    eachTextarea t = .ok ({ t with processed := .str "1" },
      t.resources.map registerResource ++ [.replace id t.config]) := by
  have h : indexOf id "__prefix__" = -1 := by
    by_contra hne
    exact hmark ((indexOf_ne_neg_one _ _).mp hne)
  simp [eachTextarea, hflag, hid, h]

theorem eachTextarea_cases (t : Textarea) :
    (eachTextarea t = .error .typeError ∧ t.processed.looseEqZeroStr = true ∧ t.id = none) ∨
    eachTextarea t = .ok (t, []) ∨
    (∃ id, t.id = some id ∧ indexOf id "__prefix__" = -1 ∧
      t.processed.looseEqZeroStr = true ∧
      eachTextarea t = .ok ({ t with processed := .str "1" },
        t.resources.map registerResource ++ [.replace id t.config])) := by
  unfold eachTextarea
  cases hflag : t.processed.looseEqZeroStr with
  | false => simp
  | true =>
    cases hid : t.id with
    | none => simp
    | some id =>
      by_cases h : indexOf id "__prefix__" = -1
      · simp [h]
      · simp [h]

theorem eachTextarea_stable {t t' : Textarea} {calls : List Call}
    (h : eachTextarea t = .ok (t', calls)) : eachTextarea t' = .ok (t', []) := by
  rcases eachTextarea_cases t with ⟨h1, _⟩ | h1 | ⟨id, _, _, _, h1⟩
  · rw [h1] at h; cases h
  · rw [h1] at h
    cases h
    exact h1
  · rw [h1] at h
    cases h
    exact eachTextarea_skip_processed (by simp [JSVal.looseEqZeroStr])

theorem eachTextarea_replace {t t' : Textarea} {calls : List Call}
    (h : eachTextarea t = .ok (t', calls)) (id : String) (cfg : JSVal)
    (hc : Call.replace id cfg ∈ calls) : ¬ "__prefix__".data <:+: id.data := by
  rcases eachTextarea_cases t with ⟨h1, _⟩ | h1 | ⟨id₀, _, hidx, _, h1⟩
  · rw [h1] at h; cases h
  · rw [h1] at h
    cases h
    simp at hc
  · rw [h1] at h
    cases h
    simp only [List.mem_append, List.mem_map, List.mem_singleton, registerResource] at hc
    rcases hc with ⟨r, _, hr⟩ | hc
    · cases hr
    · cases hc
      intro hinf
      exact (indexOf_ne_neg_one _ _).mpr hinf hidx

theorem handler_rerun : ∀ (fs : List Textarea),
    handler (handler fs).fields =
      ⟨(handler fs).fields, (handler fs).trace.map (fun _ => []), (handler fs).thrown⟩
  | [] => rfl
  | t :: ts => by
    cases h : eachTextarea t with
    | error e =>
      have h1 : handler (t :: ts) = ⟨t :: ts, [], some e⟩ := by
        simp only [handler, h]
      rw [h1]
      simp only [h1, List.map_nil]
    | ok p =>
      obtain ⟨t', calls⟩ := p
      have h1 : handler (t :: ts) =
          ⟨t' :: (handler ts).fields, calls :: (handler ts).trace, (handler ts).thrown⟩ := by
        simp only [handler, h]
      rw [h1]
      simp only [handler, eachTextarea_stable h, handler_rerun ts, List.map_cons]

theorem flatten_map_nil {α β : Type} : ∀ (l : List α),
    (l.map (fun _ => ([] : List β))).flatten = []
  | [] => rfl
  | _ :: l => by
    simp [flatten_map_nil l]

theorem afterNotifications_succ (fs : List Textarea) :
    ∀ (n : Nat), afterNotifications (n + 1) fs = (handler fs).fields
  | 0 => rfl
  | n + 1 => by
    have ih := afterNotifications_succ fs n
    simp only [afterNotifications] at ih ⊢
    rw [handler_rerun]
    exact ih

theorem handler_skip {t : Textarea} (h : eachTextarea t = .ok (t, [])) :
    ∀ (fs : List Textarea) (i : Nat), fs[i]? = some t →
      (handler fs).fields[i]? = some t ∧ ((handler fs).trace[i]?).getD [] = []
  | [], i, hget => by simp at hget
  | u :: us, 0, hget => by
    simp only [List.getElem?_cons_zero, Option.some.injEq] at hget
    subst hget
    simp [handler, h]
  | u :: us, i + 1, hget => by
    simp only [List.getElem?_cons_succ] at hget
    cases hu : eachTextarea u with
    | error e => simp [handler, hu, hget]
    | ok p =>
      obtain ⟨u', calls⟩ := p
      simp only [handler, hu, List.getElem?_cons_succ]
      exact handler_skip h us i hget

theorem afterNotifications_skip {t : Textarea} (h : eachTextarea t = .ok (t, [])) :
    ∀ (n : Nat) (fs : List Textarea) (i : Nat), fs[i]? = some t →
      (afterNotifications n fs)[i]? = some t ∧
      ((handler (afterNotifications n fs)).trace[i]?).getD [] = []
  | 0, fs, i, hget => ⟨hget, (handler_skip h fs i hget).2⟩
  | n + 1, fs, i, hget => by
    simp only [afterNotifications]
    exact afterNotifications_skip h n _ i (handler_skip h fs i hget).1

theorem handler_log_replace : ∀ (fs : List Textarea) (id : String) (cfg : JSVal),
    Call.replace id cfg ∈ (handler fs).log → ¬ "__prefix__".data <:+: id.data
  | [], id, cfg, hc => by simp [handler, Scan.log] at hc
  | t :: ts, id, cfg, hc => by
    cases h : eachTextarea t with
    | error e => simp [handler, h, Scan.log] at hc
    | ok p =>
      obtain ⟨t', calls⟩ := p
      simp only [handler, h, Scan.log, List.flatten_cons, List.mem_append] at hc
      rcases hc with hc | hc
      · exact eachTextarea_replace h id cfg hc
      · exact handler_log_replace ts id cfg hc

theorem handler_at : ∀ (fs : List Textarea) (i : Nat) (t t' : Textarea) (calls : List Call),
    fs[i]? = some t →
    (∀ (j : Nat) (u : Textarea), j < i → fs[j]? = some u →
      u.processed.looseEqZeroStr = true → u.id ≠ none) →
    eachTextarea t = .ok (t', calls) →
    (handler fs).fields[i]? = some t' ∧ (handler fs).trace[i]? = some calls
  | [], i, t, t', calls, hget, _, _ => by simp at hget
  | u :: us, 0, t, t', calls, hget, _, h => by
    simp only [List.getElem?_cons_zero, Option.some.injEq] at hget
    subst hget
    simp [handler, h]
  | u :: us, i + 1, t, t', calls, hget, hprev, h => by
    simp only [List.getElem?_cons_succ] at hget
    cases hu : eachTextarea u with
    | error e =>
      rcases eachTextarea_cases u with ⟨_, hflag, hid⟩ | h1 | ⟨_, _, _, _, h1⟩
      · exact absurd hid (hprev 0 u (Nat.succ_pos i) (List.getElem?_cons_zero) hflag)
      · rw [h1] at hu; cases hu
      · rw [h1] at hu; cases hu
    | ok p =>
      obtain ⟨u', c⟩ := p
      simp only [handler, hu, List.getElem?_cons_succ]
      refine handler_at us i t t' calls hget ?_ h
      intro j v hj hv hflag
      exact hprev (j + 1) v (Nat.succ_lt_succ hj) (by rw [List.getElem?_cons_succ]; exact hv) hflag

theorem filter_isReplace_init (rs : List (List String)) (id : String) (cfg : JSVal) :
    (rs.map registerResource ++ [Call.replace id cfg]).filter Call.isReplace =
      [Call.replace id cfg] := by
  induction rs with
  | nil => rfl
  | cons r rs ih =>
    simp only [List.map_cons, List.cons_append]
    rw [List.filter_cons_of_neg (by simp [registerResource, Call.isReplace])]
    exact ih

/-- C2: the `djnesting:added` handler is idempotent on the processed flags and the
log of CKEDITOR calls. A second run right after a first one leaves every textarea as
it is, makes no CKEDITOR call and ends as the first did; the same holds after any
number of further notifications; and a textarea whose processed flag does not equal
"0" stays as it is and gets no call in any run, however many notifications follow. -/
theorem handler_idempotent (fs : List Textarea) :
    (handler (handler fs).fields).fields = (handler fs).fields ∧
    (handler (handler fs).fields).log = [] ∧
    (handler (handler fs).fields).thrown = (handler fs).thrown ∧
    (∀ n : Nat, afterNotifications (n + 1) fs = (handler fs).fields ∧
      (handler (afterNotifications (n + 1) fs)).log = []) ∧
    (∀ (i : Nat) (t : Textarea), fs[i]? = some t → t.processed.looseEqZeroStr = false →
      ∀ n : Nat, (afterNotifications n fs)[i]? = some t ∧
        ((handler (afterNotifications n fs)).trace[i]?).getD [] = []) := by
  have hlog : (handler (handler fs).fields).log = [] := by
    rw [handler_rerun]
    exact flatten_map_nil _
  refine ⟨?_, hlog, ?_, ?_, ?_⟩
  · rw [handler_rerun]
  · rw [handler_rerun]
  · intro n
    rw [afterNotifications_succ]
    exact ⟨rfl, hlog⟩
  · intro i t hget hflag n
    exact afterNotifications_skip (eachTextarea_skip_processed hflag) n fs i hget

/-- C3: a textarea whose id contains the template placeholder marker "__prefix__", at
any position, is never initialized: through any number of `djnesting:added`
notifications it stays as it is, whatever its processed flag, no run makes a call for
it, and no run passes an id that contains the marker to `CKEDITOR.replace`. -/
theorem handler_skips_template (fs : List Textarea) (i : Nat) (t : Textarea) (id : String)
    (hget : fs[i]? = some t) (hid : t.id = some id)
    (hmark : "__prefix__".data <:+: id.data) (n : Nat) :
    (afterNotifications n fs)[i]? = some t ∧
    ((handler (afterNotifications n fs)).trace[i]?).getD [] = [] ∧
    ∀ (id' : String) (cfg : JSVal),
      Call.replace id' cfg ∈ (handler (afterNotifications n fs)).log →
      ¬ "__prefix__".data <:+: id'.data := by
  have h := afterNotifications_skip (eachTextarea_skip_template hid hmark) n fs i hget
  exact ⟨h.1, h.2, handler_log_replace _⟩

/-- Witness of C3: the template row among three textareas, through two notifications. -/
theorem handler_skips_template_witness :
    [templateInput, processedInput, freshInput][0]? = some templateInput ∧
    templateInput.id = some "id_sections-__prefix__-content" ∧
    (afterNotifications 2 [templateInput, processedInput, freshInput])[0]? =
      some templateInput ∧
    ((handler (afterNotifications 2 [templateInput, processedInput, freshInput])).trace[0]?
      ).getD [] = [] ∧
    ∀ (id' : String) (cfg : JSVal),
      Call.replace id' cfg ∈
        (handler (afterNotifications 2 [templateInput, processedInput, freshInput])).log →
      ¬ "__prefix__".data <:+: id'.data :=
  ⟨rfl, rfl, handler_skips_template [templateInput, processedInput, freshInput] 0
    templateInput "id_sections-__prefix__-content" rfl rfl
    ((indexOf_ne_neg_one _ _).mp (by decide)) 2⟩

/-- C4 as stated fails when an earlier textarea is unprocessed and has no id: for
`[anonymousInput, freshInput]` the callback throws a `TypeError` on the first
textarea, the loop ends, and the second one, whose id has no marker and whose flag
equals "0", is neither marked processed nor given an editor. -/
theorem handler_stops_at_missing_id :
    [anonymousInput, freshInput][1]? = some freshInput ∧
    freshInput.id = some "id_sections-2-content" ∧
    indexOf "id_sections-2-content" "__prefix__" = -1 ∧
    freshInput.processed.looseEqZeroStr = true ∧
    (handler [anonymousInput, freshInput]).thrown = some .typeError ∧
    (handler [anonymousInput, freshInput]).fields[1]? = some freshInput ∧
    (handler [anonymousInput, freshInput]).log = [] := by
  decide

/-- C4, amended: a textarea whose id does not contain the marker and whose processed
flag equals "0" is initialized by one notification, provided every textarea before it
in the scan that is unprocessed has an id: its flag becomes "1" and the calls made for
it are one `addExternal` per resource descriptor attached to it, in order, followed by
exactly one `CKEDITOR.replace` with its id and its own configuration. -/
theorem handler_initializes (fs : List Textarea) (i : Nat) (t : Textarea) (id : String)
    (hget : fs[i]? = some t) (hid : t.id = some id)
    (hmark : ¬ "__prefix__".data <:+: id.data)
    (hflag : t.processed.looseEqZeroStr = true)
    (hprev : ∀ (j : Nat) (u : Textarea), j < i → fs[j]? = some u →
      u.processed.looseEqZeroStr = true → u.id ≠ none) :
    (handler fs).fields[i]? = some { t with processed := .str "1" } ∧
    (handler fs).trace[i]? =
      some (t.resources.map registerResource ++ [.replace id t.config]) ∧
    (t.resources.map registerResource ++ [Call.replace id t.config]).filter Call.isReplace =
      [.replace id t.config] := by
  have h := handler_at fs i t _ _ hget hprev (eachTextarea_init hid hmark hflag)
  exact ⟨h.1, h.2, filter_isReplace_init _ _ _⟩

/-- Witness of the amended C4: the fresh row after a template row and a processed row. -/
theorem handler_initializes_witness :
    [templateInput, processedInput, freshInput][2]? = some freshInput ∧
    (handler [templateInput, processedInput, freshInput]).fields[2]? =
      some { freshInput with processed := .str "1" } ∧
    (handler [templateInput, processedInput, freshInput]).trace[2]? =
      some (freshInput.resources.map registerResource ++
        [.replace "id_sections-2-content" freshInput.config]) ∧
    (freshInput.resources.map registerResource ++
        [Call.replace "id_sections-2-content" freshInput.config]).filter Call.isReplace =
      [.replace "id_sections-2-content" freshInput.config] :=
  ⟨rfl, handler_initializes [templateInput, processedInput, freshInput] 2 freshInput
    "id_sections-2-content" rfl rfl
    (fun h => absurd ((indexOf_ne_neg_one _ _).mpr h) (by decide)) rfl
    (by
      intro j u hj hu _
      match j, hj with
      | 0, _ =>
        simp only [List.getElem?_cons_zero, Option.some.injEq] at hu
        subst hu
        decide
      | 1, _ =>
        simp only [List.getElem?_cons_succ, List.getElem?_cons_zero, Option.some.injEq] at hu
        subst hu
        decide)⟩

/-! ### Stylesheet build loop -/

theorem build_busy {s : BuildState} (h : s.busy = true) : build s = (.ok (), s) := by
  simp [build, h]

theorem build_idle {s : BuildState} {src : File} (h : s.busy = false)
    (hsrc : s.styl = some src) :
    build s = (.ok (), { s with
      busy := true
      reads := s.reads + 1
      rendering := s.rendering ++ [src.content]
      renders := s.renders + 1 }) := by
  simp [build, h, hsrc]

theorem build_atMostOne {s : BuildState} (h : AtMostOne s) : AtMostOne (build s).2 := by
  obtain ⟨hlen, hidle⟩ := h
  unfold build AtMostOne
  cases hb : s.busy with
  | true =>
    simp only [if_true]
    exact ⟨hlen, fun h => absurd (hb.symm.trans h) (by decide)⟩
  | false =>
    simp only [Bool.false_eq_true, if_false]
    cases s.styl with
    | none => simp [hidle hb]
    | some f => simp [hidle hb]

theorem renderDone_atMostOne (render : String → Except String String) (now : Nat)
    {s : BuildState} (h : AtMostOne s) : AtMostOne (renderDone render now s).2 := by
  obtain ⟨hlen, hidle⟩ := h
  unfold AtMostOne
  simp only [renderDone]
  cases hr : s.rendering with
  | nil =>
    simp only
    exact ⟨by simp [hr], fun _ => hr⟩
  | cons styl rest =>
    have hrest : rest = [] := by
      rw [hr] at hlen
      simp only [List.length_cons] at hlen
      exact List.length_eq_zero.mp (by omega)
    subst hrest
    simp only
    cases hrd : render styl <;> simp

theorem tick_atMostOne {s : BuildState} (h : AtMostOne s) : AtMostOne (tick s).2 := by
  simp only [tick]
  cases s.css with
  | none => exact h
  | some tgt =>
    cases s.styl with
    | none => exact h
    | some src =>
      simp only
      by_cases hlt : src.mtime > tgt.mtime
      · rw [if_pos hlt]
        exact build_atMostOne h
      · rw [if_neg hlt]
        exact h

theorem Process.after_exited {p : Process} {e : BuildError} (h : p.exited = some e)
    (op : BuildState → Except BuildError Unit × BuildState) : p.after op = p := by
  simp [Process.after, h]

theorem Process.after_state (p : Process)
    (op : BuildState → Except BuildError Unit × BuildState) :
    (p.after op).state = p.state ∨ (p.after op).state = (op p.state).2 := by
  unfold Process.after
  cases p.exited with
  | some e => exact Or.inl rfl
  | none =>
    simp only
    rcases hop : op p.state with ⟨r, s⟩
    cases r with
    | error e => exact Or.inr rfl
    | ok u => exact Or.inr rfl

theorem step_atMostOne (render : String → Except String String) (p : Process) (st : Step)
    (h : AtMostOne p.state) : AtMostOne (step render p st).state := by
  cases st with
  | build =>
    rcases p.after_state build with h1 | h1
    · simp only [step, h1]; exact h
    · simp only [step, h1]; exact build_atMostOne h
  | renderDone now =>
    rcases p.after_state (renderDone render now) with h1 | h1
    · simp only [step, h1]; exact h
    · simp only [step, h1]; exact renderDone_atMostOne render now h
  | tick =>
    rcases p.after_state tick with h1 | h1
    · simp only [step, h1]; exact h
    · simp only [step, h1]; exact tick_atMostOne h
  | writeStyl f => exact h
  | writeCss f => exact h

theorem run_atMostOne (render : String → Except String String) :
    ∀ (steps : List Step) (p : Process), AtMostOne p.state →
      AtMostOne (run render steps p).state
  | [], _, h => h
  | st :: steps, p, h =>
    run_atMostOne render steps (step render p st) (step_atMostOne render p st h)

theorem step_exited (render : String → Except String String) (p : Process) (st : Step)
    {e : BuildError} (h : p.exited = some e) :
    (step render p st).exited = some e ∧
    (step render p st).state.busy = p.state.busy ∧
    (step render p st).state.rendering = p.state.rendering ∧
    (step render p st).state.reads = p.state.reads ∧
    (step render p st).state.renders = p.state.renders ∧
    (step render p st).state.console = p.state.console ∧
    ((∀ f, st ≠ .writeCss f) → (step render p st).state.css = p.state.css) := by
  cases st with
  | build => simp [step, Process.after_exited h, h]
  | renderDone now => simp [step, Process.after_exited h, h]
  | tick => simp [step, Process.after_exited h, h]
  | writeStyl f => simp [step, h]
  | writeCss f => simp [step, h]

theorem run_exited (render : String → Except String String) {e : BuildError} :
    ∀ (steps : List Step) (p : Process), p.exited = some e →
      (run render steps p).exited = some e ∧
      (run render steps p).state.busy = p.state.busy ∧
      (run render steps p).state.rendering = p.state.rendering ∧
      (run render steps p).state.reads = p.state.reads ∧
      (run render steps p).state.renders = p.state.renders ∧
      (run render steps p).state.console = p.state.console ∧
      ((∀ f, Step.writeCss f ∉ steps) → (run render steps p).state.css = p.state.css)
  | [], _, h => ⟨h, rfl, rfl, rfl, rfl, rfl, fun _ => rfl⟩
  | st :: steps, p, h => by
    have h1 := step_exited render p st h
    have ih := run_exited render steps (step render p st) h1.1
    refine ⟨ih.1, ih.2.1.trans h1.2.1, ih.2.2.1.trans h1.2.2.1, ih.2.2.2.1.trans h1.2.2.2.1,
      ih.2.2.2.2.1.trans h1.2.2.2.2.1, ih.2.2.2.2.2.1.trans h1.2.2.2.2.2.1, ?_⟩
    intro hno
    have h2 : (∀ f, st ≠ .writeCss f) := by
      intro f hf
      exact hno f (by rw [hf]; exact List.mem_cons_self _ _)
    have h3 : ∀ f, Step.writeCss f ∉ steps := by
      intro f hf
      exact hno f (List.mem_cons_of_mem _ hf)
    exact (ih.2.2.2.2.2.2 h3).trans (h1.2.2.2.2.2.2 h2)

/-- C5 as stated fails. In watch mode, after a first successful build, the source is
changed to one that the compiler rejects: the tick starts the compile, the callback
throws the error, and the process exits. When the source is then corrected, so that its
modification time 30 is greater than the 11 of the output, no tick runs any more: no
further render is started and `skin.css` stays as the first build wrote it. -/
theorem no_tick_after_failed_compile :
    run sampleRender
      [.build, .renderDone 11, .writeStyl (some ⟨"bad", 20⟩), .tick, .renderDone 21]
      (start (some ⟨"good", 10⟩) none) =
      ⟨⟨true, some ⟨"bad", 20⟩, some ⟨"/* css */good", 11⟩, [], 2, 2, [.compiled 13]⟩,
        some (.compile "ParseError")⟩ ∧
    sampleRender "good" = .ok "/* css */good" ∧
    run sampleRender
      [.build, .renderDone 11, .writeStyl (some ⟨"bad", 20⟩), .tick, .renderDone 21,
        .writeStyl (some ⟨"good", 30⟩), .tick, .renderDone 31, .tick, .renderDone 41]
      (start (some ⟨"good", 10⟩) none) =
      ⟨⟨true, some ⟨"good", 30⟩, some ⟨"/* css */good", 11⟩, [], 2, 2, [.compiled 13]⟩,
        some (.compile "ParseError")⟩ := by
  decide

/-- C5, amended: when the compiler reports an error, the callback throws it, uncaught,
without writing `skin.css`, and the process exits with that error. Neither the build
loop nor the watch loop retries: through every later sequence of steps the process
stays exited, no source is read and no render is started, nothing is logged, and
`skin.css` stays as it was unless it is changed from outside. -/
theorem no_recompile_after_failure (render : String → Except String String) (now : Nat)
    (p : Process) (styl err : String) (rest : List String) (hlive : p.exited = none)
    (hpend : p.state.rendering = styl :: rest) (herr : render styl = .error err)
    (steps : List Step) :
    (step render p (.renderDone now)).exited = some (.compile err) ∧
    (step render p (.renderDone now)).state.css = p.state.css ∧
    (step render p (.renderDone now)).state.renders = p.state.renders ∧
    (run render steps (step render p (.renderDone now))).exited = some (.compile err) ∧
    (run render steps (step render p (.renderDone now))).state.renders = p.state.renders ∧
    (run render steps (step render p (.renderDone now))).state.reads = p.state.reads ∧
    (run render steps (step render p (.renderDone now))).state.console = p.state.console ∧
    ((∀ f, Step.writeCss f ∉ steps) →
      (run render steps (step render p (.renderDone now))).state.css = p.state.css) := by
  have h1 : step render p (.renderDone now) =
      ⟨{ p.state with rendering := rest }, some (.compile err)⟩ := by
    simp [step, Process.after, hlive, renderDone, hpend, herr]
  have h2 := run_exited render steps (step render p (.renderDone now))
    (e := .compile err) (by rw [h1])
  refine ⟨by rw [h1], by rw [h1], by rw [h1], h2.1, ?_, ?_, ?_, ?_⟩
  · rw [h2.2.2.2.2.1, h1]
  · rw [h2.2.2.2.1, h1]
  · rw [h2.2.2.2.2.2.1, h1]
  · intro hno
    rw [h2.2.2.2.2.2.2 hno, h1]

/-- Witness of the amended C5: the one-shot build of a rejected source, then a
corrected source and a tick. -/
theorem no_recompile_after_failure_witness :
    (step sampleRender (start (some ⟨"bad", 10⟩) (some ⟨"old", 5⟩)) .build).exited = none ∧
    (step sampleRender (start (some ⟨"bad", 10⟩) (some ⟨"old", 5⟩)) .build).state.rendering =
      ["bad"] ∧
    sampleRender "bad" = .error "ParseError" ∧
    (run sampleRender [.writeStyl (some ⟨"good", 20⟩), .tick]
      (step sampleRender (step sampleRender (start (some ⟨"bad", 10⟩) (some ⟨"old", 5⟩)) .build)
        (.renderDone 11))).exited = some (.compile "ParseError") :=
  ⟨by decide, by decide, by decide,
    (no_recompile_after_failure sampleRender 11
      (step sampleRender (start (some ⟨"bad", 10⟩) (some ⟨"old", 5⟩)) .build) "bad"
      "ParseError" [] (by decide) (by decide) (by decide)
      [.writeStyl (some ⟨"good", 20⟩), .tick]).2.2.2.1⟩

/-- C6 as stated fails in two ways. With `busy` clear and the source newer (10 against
5), the tick starts one compile, but the compiler rejects the source and `skin.css` is
not written. And in the state after a failed compile no compile is in progress, the
source is newer (20 against 5) and the compiler accepts it, yet the tick runs no
compile. -/
theorem tick_does_not_always_write :
    brokenStart.busy = false ∧ brokenStart.rendering = [] ∧
    (tick brokenStart).2.renders = brokenStart.renders + 1 ∧
    (renderDone sampleRender 11 (tick brokenStart).2).2.css = some ⟨"old", 5⟩ ∧
    (renderDone sampleRender 11 (tick brokenStart).2).2.rendering = [] ∧
    afterFailure.rendering = [] ∧
    (tick afterFailure).2.renders = afterFailure.renders ∧
    (renderDone sampleRender 30 (tick afterFailure).2).2.css = some ⟨"old", 5⟩ := by
  decide

/-- C6, amended: at a tick with `busy` clear and no render outstanding, if the source
is strictly newer than the output the tick reads the source and starts exactly one
compile of its current content, and when that compile succeeds its result is written
to `skin.css`, while on a compiler error `skin.css` is left as it was; if the source
is not newer, the tick runs no compile and changes nothing. -/
theorem tick_recompiles_when_newer (render : String → Except String String) (now : Nat)
    (s : BuildState) (src tgt : File) (hbusy : s.busy = false) (hnone : s.rendering = [])
    (hsrc : s.styl = some src) (htgt : s.css = some tgt) :
    (src.mtime > tgt.mtime →
      (tick s).1 = .ok () ∧ (tick s).2.renders = s.renders + 1 ∧
      (tick s).2.rendering = [src.content] ∧ (tick s).2.css = s.css ∧
      (∀ out, render src.content = .ok out →
        (renderDone render now (tick s).2).2.css = some ⟨out, now⟩ ∧
        (renderDone render now (tick s).2).2.renders = s.renders + 1 ∧
        (renderDone render now (tick s).2).2.rendering = [] ∧
        (renderDone render now (tick s).2).2.busy = false) ∧
      (∀ err, render src.content = .error err →
        (renderDone render now (tick s).2).1 = .error (.compile err) ∧
        (renderDone render now (tick s).2).2.css = s.css)) ∧
    (src.mtime ≤ tgt.mtime → tick s = (.ok (), s)) := by
  constructor
  · intro hlt
    have h0 : tick s = build s := by
      simp only [tick, hsrc, htgt, hlt, if_true]
    have h1 : tick s = (.ok (), { s with
        busy := true
        reads := s.reads + 1
        rendering := [src.content]
        renders := s.renders + 1 }) := by
      rw [h0, build_idle hbusy hsrc, hnone]
      rfl
    rw [h1]
    refine ⟨rfl, rfl, rfl, rfl, ?_, ?_⟩
    · intro out hout
      simp [renderDone, hout]
    · intro err herr
      simp [renderDone, herr]
  · intro hle
    have hn : ¬ src.mtime > tgt.mtime := by omega
    simp only [tick, hsrc, htgt, hn, if_false]

/-- Witness of the amended C6: a newer source that compiles. -/
theorem tick_recompiles_when_newer_witness :
    (initial (some ⟨"good", 20⟩) (some ⟨"old", 5⟩)).busy = false ∧
    (20 > 5 →
      (tick (initial (some ⟨"good", 20⟩) (some ⟨"old", 5⟩))).2.renders = 1 ∧
      (renderDone sampleRender 30
        (tick (initial (some ⟨"good", 20⟩) (some ⟨"old", 5⟩))).2).2.css =
        some ⟨"/* css */good", 30⟩) :=
  ⟨rfl, fun h =>
    have w := (tick_recompiles_when_newer sampleRender 30
      (initial (some ⟨"good", 20⟩) (some ⟨"old", 5⟩)) ⟨"good", 20⟩ ⟨"old", 5⟩
      rfl rfl rfl rfl).1 h
    ⟨w.2.1, (w.2.2.2.2.1 "/* css */good" (by decide)).1⟩⟩

/-- C7: in the build loop as a step relation, a `build()` trigger that arrives while
`busy` is set is dropped: it returns with the state unchanged, so it reads no source
and starts no render. In every state reachable from the start at most one render is
outstanding, and while one is outstanding `busy` is set and a trigger is dropped; from
a reachable idle state two triggers in a row start exactly one render. The bound is
kept by `build()`, by the render callback and by the timer callback from any state
that has it, whether or not an exception was thrown before. -/
theorem build_dropped_while_busy (render : String → Except String String)
    (styl css : Option File) (steps : List Step) :
    (∀ s : BuildState, s.busy = true → build s = (.ok (), s)) ∧
    (run render steps (start styl css)).state.rendering.length ≤ 1 ∧
    ((run render steps (start styl css)).state.rendering ≠ [] →
      (run render steps (start styl css)).state.busy = true ∧
      build (run render steps (start styl css)).state =
        (.ok (), (run render steps (start styl css)).state)) ∧
    ((run render steps (start styl css)).state.busy = false →
      ∀ src : File, (run render steps (start styl css)).state.styl = some src →
        (build (run render steps (start styl css)).state).2.rendering = [src.content] ∧
        (build (run render steps (start styl css)).state).2.renders =
          (run render steps (start styl css)).state.renders + 1 ∧
        build (build (run render steps (start styl css)).state).2 =
          (.ok (), (build (run render steps (start styl css)).state).2)) ∧
    (∀ s : BuildState, AtMostOne s →
      AtMostOne (build s).2 ∧ (∀ now : Nat, AtMostOne (renderDone render now s).2) ∧
      AtMostOne (tick s).2) := by
  have hinv := run_atMostOne render steps (start styl css)
    ⟨by simp [start, initial], fun _ => rfl⟩
  refine ⟨fun s h => build_busy h, hinv.1, ?_, ?_, ?_⟩
  · intro hne
    have hb : (run render steps (start styl css)).state.busy = true := by
      cases h : (run render steps (start styl css)).state.busy with
      | true => rfl
      | false => exact absurd (hinv.2 h) hne
    exact ⟨hb, build_busy hb⟩
  · intro hb src hsrc
    rw [build_idle hb hsrc, hinv.2 hb]
    exact ⟨rfl, rfl, build_busy rfl⟩
  · intro s h
    exact ⟨build_atMostOne h, fun now => renderDone_atMostOne render now h,
      tick_atMostOne h⟩

/-- Witness of C7: the second of two triggers at the start is dropped. -/
theorem build_dropped_while_busy_witness :
    (build (initial (some ⟨"good", 20⟩) none)).2.busy = true ∧
    build (build (initial (some ⟨"good", 20⟩) none)).2 =
      (.ok (), (build (initial (some ⟨"good", 20⟩) none)).2) :=
  ⟨by decide, (build_dropped_while_busy sampleRender (some ⟨"good", 20⟩) none []).1
    (build (initial (some ⟨"good", 20⟩) none)).2 (by decide)⟩

/-- C8: a run of `build()` on a source that the compiler rejects ends with exactly the
compiler's error and leaves `skin.css` as it was before the run; on a source that the
compiler accepts it ends normally with `skin.css` holding exactly the compiler's CSS. -/
theorem build_propagates_error (render : String → Except String String) (now : Nat)
    (s : BuildState) (src : File) (hbusy : s.busy = false) (hnone : s.rendering = [])
    (hsrc : s.styl = some src) :
    (∀ err, render src.content = .error err →
      (buildAndRender render now s).1 = .error (.compile err) ∧
      (buildAndRender render now s).2.css = s.css) ∧
    (∀ out, render src.content = .ok out →
      (buildAndRender render now s).1 = .ok () ∧
      (buildAndRender render now s).2.css = some ⟨out, now⟩ ∧
      ((buildAndRender render now s).2.css.map File.content) = some out) := by
  have h1 : buildAndRender render now s = renderDone render now { s with
      busy := true
      reads := s.reads + 1
      rendering := [src.content]
      renders := s.renders + 1 } := by
    simp only [buildAndRender, hbusy, Bool.false_eq_true, if_false]
    rw [build_idle hbusy hsrc, hnone]
    rfl
  rw [h1]
  constructor
  · intro err herr
    simp [renderDone, herr]
  · intro out hout
    simp [renderDone, hout]

/-- Witness of C8: the one-shot run on a rejected source. -/
theorem build_propagates_error_witness :
    brokenStart.busy = false ∧ brokenStart.styl = some ⟨"bad", 10⟩ ∧
    sampleRender "bad" = .error "ParseError" ∧
    (buildAndRender sampleRender 11 brokenStart).1 = .error (.compile "ParseError") ∧
    (buildAndRender sampleRender 11 brokenStart).2.css = brokenStart.css :=
  ⟨rfl, rfl, by decide,
    (build_propagates_error sampleRender 11 brokenStart ⟨"bad", 10⟩ rfl rfl rfl).1
      "ParseError" (by decide)⟩

end Kerrokantasi
